import Mathlib

/-!
Shallow embedding of the aggregation engine of `src/App.py` (a Twilio
call/SMS activity report), together with proofs settling the spec claims.

Strings are modelled as `List Char`; Python `None` as `Option.none`.
Python's `\d` and whitespace classes are modelled over ASCII, which covers
every input the program and spec exercise.
-/

/-- Python whitespace characters (the ASCII core of `\s` / `str.strip`). -/
def isSpacePy (c : Char) : Bool :=
  c = ' ' ∨ c = '\t' ∨ c = '\n' ∨ c = '\r' ∨ c = Char.ofNat 11 ∨ c = Char.ofNat 12

/-- Python `str.strip()`: drop whitespace from both ends. -/
def pyStrip (l : List Char) : List Char :=
  ((l.dropWhile isSpacePy).reverse.dropWhile isSpacePy).reverse

/-- `re.sub(r'\s+', '', s)`: remove every whitespace character. -/
def stripWS (l : List Char) : List Char :=
  l.filter (fun c => ¬ isSpacePy c)

/-- Python `str.lower()` (ASCII part). -/
def pyLower (l : List Char) : List Char :=
  l.map Char.toLower

/-- `getattr(x, f, "") or ""` / `x or ""`: an absent or `None` string becomes `""`. -/
def optStr (o : Option (List Char)) : List Char :=
  o.getD []

/-- Python truthiness of a string-or-None value. -/
def pyTruthy (o : Option (List Char)) : Bool :=
  match o with
  | none => false
  | some s => s ≠ []

/-- Python `a or b` on string-or-None values. -/
def pyOrStr (a b : Option (List Char)) : Option (List Char) :=
  if pyTruthy a then a else b

/-- Python `s.startswith(pat)`. -/
def pyStartswith : List Char → List Char → Bool
  | [], _ => true
  | _ :: _, [] => false
  | p :: ps, c :: cs => p = c ∧ pyStartswith ps cs

/-- Python `pat in s` (substring containment). -/
def containsSub (pat : List Char) : List Char → Bool
  | [] => pat = ([] : List Char)
  | c :: rest => pyStartswith pat (c :: rest) || containsSub pat rest

/-- Decimal digits to the number they denote. -/
def digitsToNat (l : List Char) : Nat :=
  l.foldl (fun acc c => 10 * acc + (c.toNat - '0'.toNat)) 0

/-- Python `int(s)` on a string: optional surrounding whitespace, optional
sign, then decimal digits; `none` models the `ValueError` it raises
otherwise.  (Digit-group underscores are not modelled.) -/
def pyInt (s : List Char) : Option Int :=
  match pyStrip s with
  | [] => none
  | '+' :: ds => if ds ≠ [] ∧ ds.all Char.isDigit then some (digitsToNat ds) else none
  | '-' :: ds => if ds ≠ [] ∧ ds.all Char.isDigit then some (-(digitsToNat ds : Int)) else none
  | ds => if ds.all Char.isDigit then some (digitsToNat ds) else none

/-- `re.search(r'(\+?\d{5,15})', s)`: leftmost match of an optional `+`
followed by 5 to 15 digits (greedy), scanning one position at a time. -/
def searchRun : List Char → Option (List Char)
  | [] => none
  | c :: rest =>
    if c = '+' then
      let ds := (rest.takeWhile Char.isDigit).take 15
      if 5 ≤ ds.length then some ('+' :: ds) else searchRun rest
    else if c.isDigit then
      let ds := ((c :: rest).takeWhile Char.isDigit).take 15
      if 5 ≤ ds.length then some ds else searchRun rest
    else searchRun rest

/-- `num if num.startswith("+") else "+" + num`. -/
def plusify (num : List Char) : List Char :=
  if pyStartswith ['+'] num then num else '+' :: num

/-- `normalize_number` from `src/App.py`. -/
def normalize_number (val : Option (List Char)) : Option (List Char) :=
  match val with
  | none => none
  | some s =>
    if s = [] then none
    else
      match searchRun s with
      | some num => some (plusify num)
      | none => if stripWS s = [] then none else some (stripWS s)

/-- `extract_template` splits on the first comma. -/
def splitFirstComma : List Char → Option (List Char × List Char)
  | [] => none
  | c :: rest =>
    if c = ',' then some ([], rest)
    else (splitFirstComma rest).map (fun p => (c :: p.1, p.2))

/-- `extract_template` from `src/App.py`. -/
def extract_template (body : List Char) : Option (List Char) :=
  if body = [] then none
  else
    match splitFirstComma body with
    | none => none
    | some p => if 30 < (pyStrip p.2).length then some (pyStrip p.2) else none

/-! ## Directory (NAME_MAP) and identity resolution -/

/-- A directory: an ordered association of raw number strings to display names. -/
abbrev Directory := List (List Char × List Char)

/-- `NAME_MAP` from `src/App.py`. -/
def NAME_MAP : Directory :=
  [("+13613332093".data, "Warren Kadd".data),
   ("+12109341811".data, "Swapnil B".data),
   ("+14693789446".data, "Roshan Y".data),
   ("+12108796990".data, "Sanket Sir".data),
   ("+12109343993".data, "Swapnil G".data),
   ("+12103611235".data, "Bilal K".data)]

/-- `MIN_MESSAGES_FOR_CAMPAIGN` from `src/App.py`. -/
def MIN_MESSAGES_FOR_CAMPAIGN : Nat := 10

/-- `{normalize_number(k): v for k, v in name_map.items() if normalize_number(k)}`
(the configured maps have no colliding normalized keys, so first-wins
association lookup agrees with Python's dict). -/
def mkDirectory (name_map : Directory) : Directory :=
  name_map.filterMap (fun p => (normalize_number (some p.1)).map (fun k => (k, p.2)))

/-- `NORMALIZED_NAME_MAP` from `src/App.py`. -/
def NORMALIZED_NAME_MAP : Directory := mkDirectory NAME_MAP

/-- Association lookup (Python `dict.get`). -/
def lookupName : Directory → List Char → Option (List Char)
  | [], _ => none
  | (k, v) :: rest, n => if k = n then some v else lookupName rest n

/-- `num in NORMALIZED_NAME_MAP` for a known-string key. -/
def isTracked (dir : Directory) (n : List Char) : Bool :=
  (lookupName dir n).isSome

/-- `num in NORMALIZED_NAME_MAP` where `num` may be `None`
(`None` is never a key of the normalized map). -/
def isTrackedOpt (dir : Directory) (n : Option (List Char)) : Bool :=
  match n with
  | none => false
  | some k => isTracked dir k

/-! ## Records -/

/-- One Twilio call record (the fields `run_report` reads; the Python
attribute `to` is spelled `to_` here, `to` being reserved in Lean). -/
structure CallRecord where
  parent_call_sid : Option (List Char)
  status : Option (List Char)
  duration : Option (List Char)
  from_ : Option (List Char)
  to_ : Option (List Char)
  direction : Option (List Char)
deriving DecidableEq, Repr

/-- One Twilio message record (the fields `run_report` reads). -/
structure MessageRecord where
  from_ : Option (List Char)
  to_ : Option (List Char)
  direction : Option (List Char)
  status : Option (List Char)
  body : Option (List Char)
deriving DecidableEq, Repr

/-- `our_number_from_message` from `src/App.py`. -/
def our_number_from_message (m : MessageRecord) : Option (List Char) :=
  if pyStartswith "outbound".data (pyLower (optStr m.direction)) then m.from_
  else if pyStartswith "inbound".data (pyLower (optStr m.direction)) then m.to_
  else pyOrStr m.from_ m.to_

/-! ## Accumulators -/

/-- One entry of an owner's `other_sms` list. -/
structure OtherSmsEntry where
  direction : List Char
  contact : Option (List Char)
  body : List Char
deriving DecidableEq, Repr

/-- The per-owner accumulator created by the `defaultdict` in `run_report`. -/
structure OwnerStats where
  inbound_calls : Nat
  inbound_duration : Int
  outbound_calls : Nat
  outbound_duration : Int
  sms : Nat
  campaigns : List (List Char × Nat)
  other_sms : List OtherSmsEntry
deriving DecidableEq, Repr

def emptyStats : OwnerStats :=
  { inbound_calls := 0, inbound_duration := 0, outbound_calls := 0,
    outbound_duration := 0, sms := 0, campaigns := [], other_sms := [] }

/-- `report_data`, modelled as an insertion-ordered association list. -/
abbrev ReportData := List (List Char × OwnerStats)

/-- `report_data[k] = f(report_data[k])` with `defaultdict` semantics:
a missing key is created (at the end, preserving insertion order) with
`emptyStats` before `f` is applied. -/
def updateData (d : ReportData) (k : List Char) (f : OwnerStats → OwnerStats) : ReportData :=
  match d with
  | [] => [(k, f emptyStats)]
  | (k', s) :: rest => if k' = k then (k', f s) :: rest else (k', s) :: updateData rest k f

/-- The stats stored for a key (the `defaultdict` default if absent). -/
def getStats (d : ReportData) (k : List Char) : OwnerStats :=
  match d with
  | [] => emptyStats
  | (k', s) :: rest => if k' = k then s else getStats rest k

/-! ## Call aggregation (`run_report`, first loop) -/

/-- `int(getattr(c, "duration", 0) or 0)`: absent / `None` / `""` become 0;
a non-empty string is parsed by `int`, `none` modelling the raised
`ValueError`. -/
def callDuration (c : CallRecord) : Option Int :=
  match c.duration with
  | none => some 0
  | some s => if s = [] then some 0 else pyInt s

/-- The `if from_num in ... elif to_num in ...` dispatch: the owner key and
whether the call is counted as outbound (`true`) or inbound (`false`). -/
def callOwner (dir : Directory) (c : CallRecord) : Option (List Char × Bool) :=
  if isTrackedOpt dir (normalize_number c.from_) then
    (normalize_number c.from_).map (fun fn => (fn, true))
  else if isTrackedOpt dir (normalize_number c.to_) then
    (normalize_number c.to_).map (fun tn => (tn, false))
  else none

def bumpOutboundCall (dur : Int) (s : OwnerStats) : OwnerStats :=
  { s with outbound_calls := s.outbound_calls + 1,
           outbound_duration := s.outbound_duration + dur }

def bumpInboundCall (dur : Int) (s : OwnerStats) : OwnerStats :=
  { s with inbound_calls := s.inbound_calls + 1,
           inbound_duration := s.inbound_duration + dur }

/-- One iteration of the call loop; `none` models an uncaught exception
(which aborts the whole report). -/
def processCall (dir : Directory) (d : ReportData) (c : CallRecord) : Option ReportData :=
  if c.parent_call_sid.isSome then some d
  else if pyLower (optStr c.status) ≠ "completed".data then some d
  else
    match callDuration c with
    | none => none
    | some dur =>
      match callOwner dir c with
      | none => some d
      | some (k, true) => some (updateData d k (bumpOutboundCall dur))
      | some (k, false) => some (updateData d k (bumpInboundCall dur))

/-- The whole call loop; an exception in any iteration aborts the run. -/
def processCalls (dir : Directory) (d : ReportData) : List CallRecord → Option ReportData
  | [] => some d
  | c :: cs =>
    match processCall dir d c with
    | none => none
    | some d' => processCalls dir d' cs

/-! ## Message aggregation (`run_report`, second loop) -/

/-- `defaultdict(int)` bump of a campaign counter (insertion-ordered). -/
def bumpCampaign : List (List Char × Nat) → List Char → List (List Char × Nat)
  | [], t => [(t, 1)]
  | (t', n) :: rest, t =>
    if t' = t then (t', n + 1) :: rest else (t', n) :: bumpCampaign rest t

/-- The walrus condition `'outbound' in direction and (template := extract_template(body))`:
the template that makes the message a campaign message, if any (an empty
template would be falsy in Python; `extract_template` in fact never
returns one). -/
def msgTemplate (isOut : Bool) (body : List Char) : Option (List Char) :=
  match (if isOut then extract_template body else none) with
  | none => none
  | some t => if t = [] then none else some t

def bumpSms (s : OwnerStats) : OwnerStats :=
  { s with sms := s.sms + 1 }

def addCampaign (t : List Char) (s : OwnerStats) : OwnerStats :=
  { s with campaigns := bumpCampaign s.campaigns t }

def addOtherSms (e : OtherSmsEntry) (s : OwnerStats) : OwnerStats :=
  { s with other_sms := s.other_sms ++ [e] }

/-- The non-campaign entry the loop appends for a message `m`:
direction label, `contact = m.to if 'outbound' in direction else m.from_`,
and the body. -/
def msgOtherEntry (m : MessageRecord) : OtherSmsEntry :=
  { direction := (if containsSub "outbound".data (pyLower (optStr m.direction))
                  then "outbound" else "inbound").data,
    contact := if containsSub "outbound".data (pyLower (optStr m.direction))
               then m.to_ else m.from_,
    body := optStr m.body }

/-- One iteration of the message loop of `run_report`. -/
def processMessage (dir : Directory) (d : ReportData) (m : MessageRecord) : ReportData :=
  match normalize_number (our_number_from_message m) with
  | none => d
  | some num =>
    if num = [] ∨ ¬ isTracked dir num then d
    else
      match msgTemplate (containsSub "outbound".data (pyLower (optStr m.direction)))
          (optStr m.body) with
      | some t => updateData (updateData d num bumpSms) num (addCampaign t)
      | none => updateData (updateData d num bumpSms) num (addOtherSms (msgOtherEntry m))

/-- Both aggregation loops of `run_report`; `none` models an uncaught
exception aborting the whole run. -/
def aggregate (dir : Directory) (calls : List CallRecord) (msgs : List MessageRecord) :
    Option ReportData :=
  match processCalls dir [] calls with
  | none => none
  | some d => some (msgs.foldl (processMessage dir) d)

/-! ## Report builder -/

/-- `round(x, 1)` of `seconds / 60`, represented in tenths of a minute
(`round` ties go to the even tenth; the division is modelled exactly). -/
def minutesTenths (seconds : Int) : Int :=
  let n := 10 * seconds
  let q := Int.fdiv n 60
  let r := n - 60 * q
  if 2 * r < 60 then q
  else if 60 < 2 * r then q + 1
  else if q % 2 = 0 then q else q + 1

/-- One row of the summary table (minute columns carried in tenths). -/
structure ReportRow where
  name : List Char
  number : List Char
  inbound_calls : Nat
  inbound_mins_tenths : Int
  outbound_calls : Nat
  outbound_mins_tenths : Int
  sms : Nat
  total_activity : Nat
deriving DecidableEq, Repr

/-- The row built for one `report_data` entry. -/
def buildRow (dir : Directory) (p : List Char × OwnerStats) : ReportRow :=
  { name := (lookupName dir p.1).getD "Unknown".data,
    number := p.1,
    inbound_calls := p.2.inbound_calls,
    inbound_mins_tenths := minutesTenths p.2.inbound_duration,
    outbound_calls := p.2.outbound_calls,
    outbound_mins_tenths := minutesTenths p.2.outbound_duration,
    sms := p.2.sms,
    total_activity := p.2.inbound_calls + p.2.outbound_calls + p.2.sms }

/-- Stable insertion for descending sort by total activity
(`sorted(..., reverse=True)` keeps input order among ties). -/
def insertRowDesc (r : ReportRow) : List ReportRow → List ReportRow
  | [] => [r]
  | r' :: rest =>
    if r'.total_activity ≤ r.total_activity then r :: r' :: rest
    else r' :: insertRowDesc r rest

/-- `sorted(rows, key=..., reverse=True)`. -/
def sortRowsDesc : List ReportRow → List ReportRow
  | [] => []
  | r :: rest => insertRowDesc r (sortRowsDesc rest)

/-- The summary table of `run_report`. -/
def buildReport (dir : Directory) (d : ReportData) : List ReportRow :=
  sortRowsDesc (d.map (buildRow dir))

/-- total of all campaign counters of one owner. -/
def sumCounts (camps : List (List Char × Nat)) : Nat :=
  (camps.map Prod.snd).sum

/-- The qualifying-campaign view:
`{k: v for k, v in campaigns.items() if v >= MIN_MESSAGES_FOR_CAMPAIGN}`. -/
def qualifyingCampaigns (camps : List (List Char × Nat)) : List (List Char × Nat) :=
  camps.filter (fun p => MIN_MESSAGES_FOR_CAMPAIGN ≤ p.2)

/-! ## Lemmas about the string helpers -/

theorem takeWhile_eq_self_of_all {p : Char → Bool} :
    ∀ {l : List Char}, l.all p = true → l.takeWhile p = l := by
  intro l
  induction l with
  | nil => intro _; rfl
  | cons c cs ih =>
    intro h
    simp only [List.all_cons, Bool.and_eq_true] at h
    simp [List.takeWhile_cons, h.1, ih h.2]

theorem searchRun_shape {s r : List Char} (h : searchRun s = some r) :
    ∃ ds : List Char, ds ≠ [] ∧ ds.all Char.isDigit = true ∧
      5 ≤ ds.length ∧ ds.length ≤ 15 ∧ (r = ds ∨ r = '+' :: ds) := by
  induction s with
  | nil => simp [searchRun] at h
  | cons c rest ih =>
    rw [searchRun] at h
    by_cases hc : c = '+'
    · simp only [hc, if_pos rfl] at h
      by_cases h5 : 5 ≤ ((rest.takeWhile Char.isDigit).take 15).length
      · rw [if_pos h5] at h
        refine ⟨(rest.takeWhile Char.isDigit).take 15, ?_, ?_, h5, ?_, ?_⟩
        · intro hnil; rw [hnil] at h5; simp at h5
        · have h1 : (rest.takeWhile Char.isDigit).all Char.isDigit = true := by
            rw [List.all_eq_true]; intro x hx
            exact List.mem_takeWhile_imp hx
          rw [List.all_eq_true] at h1 ⊢
          intro x hx
          exact h1 x (List.mem_of_mem_take hx)
        · exact le_trans (List.length_take_le 15 _) (le_refl 15)
        · right; exact (Option.some_injective _ h).symm
      · rw [if_neg h5] at h; exact ih h
    · rw [if_neg hc] at h
      by_cases hd : c.isDigit
      · simp only [hd, if_pos rfl] at h
        by_cases h5 : 5 ≤ (((c :: rest).takeWhile Char.isDigit).take 15).length
        · rw [if_pos h5] at h
          refine ⟨((c :: rest).takeWhile Char.isDigit).take 15, ?_, ?_, h5, ?_, ?_⟩
          · intro hnil; rw [hnil] at h5; simp at h5
          · have h1 : ((c :: rest).takeWhile Char.isDigit).all Char.isDigit = true := by
              rw [List.all_eq_true]; intro x hx
              exact List.mem_takeWhile_imp hx
            rw [List.all_eq_true] at h1 ⊢
            intro x hx
            exact h1 x (List.mem_of_mem_take hx)
          · exact le_trans (List.length_take_le 15 _) (le_refl 15)
          · left; exact (Option.some_injective _ h).symm
        · rw [if_neg h5] at h; exact ih h
      · simp only [hd] at h
        rw [if_neg (by simp)] at h
        exact ih h

theorem searchRun_plus_digits {ds : List Char}
    (hall : ds.all Char.isDigit = true) (h5 : 5 ≤ ds.length) (h15 : ds.length ≤ 15) :
    searchRun ('+' :: ds) = some ('+' :: ds) := by
  rw [searchRun]
  rw [if_pos rfl]
  have ht : ds.takeWhile Char.isDigit = ds := takeWhile_eq_self_of_all hall
  have htk : (ds.takeWhile Char.isDigit).take 15 = ds := by
    rw [ht]; exact List.take_of_length_le h15
  rw [htk, if_pos h5]

theorem plusify_not_digit_head {ds : List Char} (hne : ds ≠ [])
    (hall : ds.all Char.isDigit = true) : plusify ds = '+' :: ds := by
  unfold plusify
  cases ds with
  | nil => exact absurd rfl hne
  | cons d ds' =>
    have hd : d.isDigit = true := by
      rw [List.all_eq_true] at hall
      exact hall d (List.mem_cons_self d ds')
    have : d ≠ '+' := by
      intro hcontr; rw [hcontr] at hd; exact absurd hd (by decide)
    rw [if_neg]
    simp [pyStartswith]
    intro hcontr; exact this hcontr.symm

theorem plusify_plus {ds : List Char} : plusify ('+' :: ds) = '+' :: ds := by
  unfold plusify
  rw [if_pos]
  simp [pyStartswith]

theorem stripWS_idem (l : List Char) : stripWS (stripWS l) = stripWS l := by
  unfold stripWS
  rw [List.filter_eq_self]
  intro a ha
  exact (List.mem_filter.mp ha).2

/-- After success of the digit-run branch, the result is `'+'` followed by
5 to 15 digits, and `normalize_number` is a fixed point there. -/
theorem normalize_fixed_of_searchRun {s r : List Char} (h : searchRun s = some r) :
    normalize_number (normalize_number (some s)) = normalize_number (some s) := by
  obtain ⟨ds, hne, hall, h5, h15, hr⟩ := searchRun_shape h
  have hs : s ≠ [] := by
    intro hnil; rw [hnil] at h; simp [searchRun] at h
  have hplus : plusify r = '+' :: ds := by
    cases hr with
    | inl h1 => rw [h1]; exact plusify_not_digit_head hne hall
    | inr h1 => rw [h1]; exact plusify_plus
  have h1 : normalize_number (some s) = some ('+' :: ds) := by
    simp only [normalize_number]
    rw [if_neg hs, h]
    show some (plusify r) = some ('+' :: ds)
    rw [hplus]
  rw [h1]
  simp only [normalize_number]
  rw [if_neg (by simp), searchRun_plus_digits hall h5 h15]
  show some (plusify ('+' :: ds)) = some ('+' :: ds)
  rw [plusify_plus]

/-- When no digit run exists in `s` nor in its whitespace-stripped form,
`normalize_number` is also a fixed point (the fallback branch). -/
theorem normalize_fixed_of_fallback {s : List Char} (h : searchRun s = none)
    (h2 : searchRun (stripWS s) = none) :
    normalize_number (normalize_number (some s)) = normalize_number (some s) := by
  by_cases hs : s = []
  · rw [hs]; rfl
  · have h1 : normalize_number (some s) =
        if stripWS s = [] then none else some (stripWS s) := by
      simp only [normalize_number]
      rw [if_neg hs, h]
    by_cases h0 : stripWS s = []
    · rw [h1, if_pos h0]; rfl
    · rw [h1, if_neg h0]
      simp only [normalize_number]
      rw [if_neg h0, h2, stripWS_idem, if_neg h0]

theorem splitFirstComma_eq_none_iff {l : List Char} :
    splitFirstComma l = none ↔ ',' ∉ l := by
  induction l with
  | nil => simp [splitFirstComma]
  | cons c rest ih =>
    rw [splitFirstComma]
    by_cases hc : c = ','
    · subst hc; simp
    · rw [if_neg hc]
      simp only [List.mem_cons]
      constructor
      · intro h hmem
        rcases hmem with h1 | h1
        · exact hc h1.symm
        · have := Option.map_eq_none.mp h
          exact (ih.mp this) h1
      · intro h
        have : splitFirstComma rest = none := ih.mpr (fun hm => h (Or.inr hm))
        rw [this]; rfl

theorem splitFirstComma_some {l pre post : List Char}
    (h : splitFirstComma l = some (pre, post)) : l = pre ++ ',' :: post := by
  induction l generalizing pre post with
  | nil => simp [splitFirstComma] at h
  | cons c rest ih =>
    rw [splitFirstComma] at h
    by_cases hc : c = ','
    · rw [if_pos hc] at h
      obtain ⟨h1, h2⟩ := Prod.mk.injEq .. ▸ Option.some_injective _ h
      subst hc; rw [← h1, ← h2]; rfl
    · rw [if_neg hc] at h
      match hrec : splitFirstComma rest with
      | none => rw [hrec] at h; simp at h
      | some (p, q) =>
        rw [hrec] at h
        have h' : some ((c :: p, q) : List Char × List Char) = some (pre, post) := h
        have hpair := Option.some_injective _ h'
        have h1 : c :: p = pre := congrArg Prod.fst hpair
        have h2 : q = post := congrArg Prod.snd hpair
        have hrest : rest = p ++ ',' :: q := ih hrec
        rw [← h1, ← h2, hrest]
        rfl

/-! ## Lemmas about the accumulator map -/

theorem getStats_updateData_self (d : ReportData) (k : List Char)
    (f : OwnerStats → OwnerStats) : getStats (updateData d k f) k = f (getStats d k) := by
  induction d with
  | nil => simp [updateData, getStats]
  | cons p rest ih =>
    obtain ⟨k', s⟩ := p
    rw [updateData]
    by_cases h : k' = k
    · rw [if_pos h]
      simp [getStats, h]
    · rw [if_neg h]
      simp only [getStats]
      rw [if_neg h, if_neg h, ih]

theorem getStats_updateData_other (d : ReportData) (k k' : List Char)
    (f : OwnerStats → OwnerStats) (h : k' ≠ k) :
    getStats (updateData d k f) k' = getStats d k' := by
  have hk : ¬ (k = k') := fun hc => h hc.symm
  induction d with
  | nil =>
    simp only [updateData, getStats]
    rw [if_neg hk]
  | cons p rest ih =>
    obtain ⟨k0, s⟩ := p
    rw [updateData]
    by_cases h0 : k0 = k
    · subst h0
      rw [if_pos rfl]
      simp only [getStats]
      rw [if_neg hk, if_neg hk]
    · rw [if_neg h0]
      simp only [getStats]
      by_cases h1 : k0 = k'
      · rw [if_pos h1, if_pos h1]
      · rw [if_neg h1, if_neg h1, ih]

theorem updateData_updateData (d : ReportData) (k : List Char)
    (f g : OwnerStats → OwnerStats) :
    updateData (updateData d k f) k g = updateData d k (fun s => g (f s)) := by
  induction d with
  | nil => simp [updateData]
  | cons p rest ih =>
    obtain ⟨k', s⟩ := p
    rw [updateData]
    by_cases h : k' = k
    · rw [if_pos h]
      simp [updateData, h]
    · rw [if_neg h]
      simp only [updateData]
      rw [if_neg h, if_neg h, ih]

theorem mem_updateData {d : ReportData} {k k' : List Char} {s' : OwnerStats}
    {f : OwnerStats → OwnerStats} (h : (k', s') ∈ updateData d k f) :
    (k', s') ∈ d ∨ (k' = k ∧ ∃ s0, ((k, s0) ∈ d ∨ s0 = emptyStats) ∧ s' = f s0) := by
  induction d with
  | nil =>
    simp only [updateData, List.mem_singleton] at h
    have h1 : k' = k := congrArg Prod.fst h
    have h2 : s' = f emptyStats := congrArg Prod.snd h
    exact Or.inr ⟨h1, emptyStats, Or.inr rfl, h2⟩
  | cons p rest ih =>
    obtain ⟨k0, s0⟩ := p
    rw [updateData] at h
    by_cases h0 : k0 = k
    · rw [if_pos h0] at h
      rcases List.mem_cons.mp h with h1 | h1
      · have hk : k' = k0 := congrArg Prod.fst h1
        have hs : s' = f s0 := congrArg Prod.snd h1
        exact Or.inr ⟨hk.trans h0, s0, Or.inl (h0 ▸ List.mem_cons_self _ _), hs⟩
      · exact Or.inl (List.mem_cons_of_mem _ h1)
    · rw [if_neg h0] at h
      rcases List.mem_cons.mp h with h1 | h1
      · exact Or.inl (List.mem_cons.mpr (Or.inl h1))
      · rcases ih h1 with h2 | ⟨h2, s1, h3, h4⟩
        · exact Or.inl (List.mem_cons_of_mem _ h2)
        · refine Or.inr ⟨h2, s1, ?_, h4⟩
          rcases h3 with h3 | h3
          · exact Or.inl (List.mem_cons_of_mem _ h3)
          · exact Or.inr h3

/-! ## Characterization of one message-loop iteration -/

/-- The owner a message is attributed to, if any: the guard
`if not num or num not in NORMALIZED_NAME_MAP: continue` of the loop. -/
def msgOwner (dir : Directory) (m : MessageRecord) : Option (List Char) :=
  match normalize_number (our_number_from_message m) with
  | none => none
  | some num => if num = [] ∨ ¬ isTracked dir num then none else some num

/-- The combined effect of one attributed message on its owner's stats. -/
def msgUpdate (m : MessageRecord) (s : OwnerStats) : OwnerStats :=
  match msgTemplate (containsSub "outbound".data (pyLower (optStr m.direction)))
      (optStr m.body) with
  | some t => addCampaign t (bumpSms s)
  | none => addOtherSms (msgOtherEntry m) (bumpSms s)

theorem processMessage_eq (dir : Directory) (d : ReportData) (m : MessageRecord) :
    processMessage dir d m =
      match msgOwner dir m with
      | none => d
      | some num => updateData d num (msgUpdate m) := by
  cases hn : normalize_number (our_number_from_message m) with
  | none => simp [processMessage, msgOwner, hn]
  | some num =>
    by_cases hg : num = [] ∨ ¬ isTracked dir num
    · simp only [processMessage, msgOwner, hn]
      rw [if_pos hg, if_pos hg]
    · simp only [processMessage, msgOwner, hn]
      rw [if_neg hg, if_neg hg]
      cases ht : msgTemplate (containsSub "outbound".data (pyLower (optStr m.direction)))
          (optStr m.body) with
      | some t =>
        show updateData (updateData d num bumpSms) num (addCampaign t) =
          updateData d num (msgUpdate m)
        rw [updateData_updateData]
        congr 1
        funext s
        simp only [msgUpdate, ht]
      | none =>
        show updateData (updateData d num bumpSms) num (addOtherSms (msgOtherEntry m)) =
          updateData d num (msgUpdate m)
        rw [updateData_updateData]
        congr 1
        funext s
        simp only [msgUpdate, ht]

/-! ## Invariant machinery over the aggregation -/

theorem callOwner_tracked {dir : Directory} {c : CallRecord} {k : List Char} {b : Bool}
    (h : callOwner dir c = some (k, b)) : isTracked dir k = true := by
  rw [callOwner] at h
  by_cases h1 : isTrackedOpt dir (normalize_number c.from_) = true
  · rw [if_pos h1] at h
    match hf : normalize_number c.from_ with
    | none => rw [hf] at h1; simp [isTrackedOpt] at h1
    | some fn =>
      rw [hf] at h h1
      have : fn = k := congrArg Prod.fst (Option.some_injective _ h)
      rw [← this]; exact h1
  · rw [if_neg h1] at h
    by_cases h2 : isTrackedOpt dir (normalize_number c.to_) = true
    · rw [if_pos h2] at h
      match hf : normalize_number c.to_ with
      | none => rw [hf] at h2; simp [isTrackedOpt] at h2
      | some tn =>
        rw [hf] at h h2
        have : tn = k := congrArg Prod.fst (Option.some_injective _ h)
        rw [← this]; exact h2
    · rw [if_neg h2] at h; simp at h

theorem msgOwner_tracked {dir : Directory} {m : MessageRecord} {num : List Char}
    (h : msgOwner dir m = some num) : isTracked dir num = true := by
  rw [msgOwner] at h
  split at h
  · exact absurd h (by simp)
  · split at h
    · exact absurd h (by simp)
    · rename_i o val heq hg
      have hn : val = num := Option.some_injective _ h
      subst hn
      rcases not_or.mp hg with ⟨_, h2⟩
      exact not_not.mp h2

/-- Preservation of a per-entry invariant by one `defaultdict` update. -/
theorem dataInv_updateData {P : List Char → OwnerStats → Prop} {d : ReportData}
    {k : List Char} {f : OwnerStats → OwnerStats}
    (hd : ∀ k' s', (k', s') ∈ d → P k' s')
    (hf : ∀ s, P k s → P k (f s)) (he : P k emptyStats) :
    ∀ k' s', (k', s') ∈ updateData d k f → P k' s' := by
  intro k' s' hmem
  rcases mem_updateData hmem with h | ⟨hk, s0, hs0, hs'⟩
  · exact hd _ _ h
  · subst hk; subst hs'
    rcases hs0 with h0 | h0
    · exact hf s0 (hd _ _ h0)
    · subst h0; exact hf _ he

/-- Preservation of a per-entry invariant by one call-loop iteration. -/
theorem dataInv_processCall {dir : Directory} {P : List Char → OwnerStats → Prop}
    {d d' : ReportData} {c : CallRecord}
    (h : processCall dir d c = some d')
    (hd : ∀ k s, (k, s) ∈ d → P k s)
    (he : ∀ k, isTracked dir k = true → P k emptyStats)
    (hout : ∀ k dur s, P k s → P k (bumpOutboundCall dur s))
    (hin : ∀ k dur s, P k s → P k (bumpInboundCall dur s)) :
    ∀ k s, (k, s) ∈ d' → P k s := by
  rw [processCall] at h
  by_cases h1 : c.parent_call_sid.isSome = true
  · rw [if_pos h1] at h
    rw [← Option.some_injective _ h]; exact hd
  · rw [if_neg h1] at h
    by_cases h2 : pyLower (optStr c.status) ≠ "completed".data
    · rw [if_pos h2] at h
      rw [← Option.some_injective _ h]; exact hd
    · rw [if_neg h2] at h
      match hdur : callDuration c with
      | none => rw [hdur] at h; simp at h
      | some dur =>
        rw [hdur] at h
        match hco : callOwner dir c with
        | none =>
          rw [hco] at h
          rw [← Option.some_injective _ h]; exact hd
        | some (k, true) =>
          rw [hco] at h
          rw [← Option.some_injective _ h]
          exact dataInv_updateData hd (hout k dur)
            (he k (callOwner_tracked hco))
        | some (k, false) =>
          rw [hco] at h
          rw [← Option.some_injective _ h]
          exact dataInv_updateData hd (hin k dur)
            (he k (callOwner_tracked hco))

/-- Preservation of a per-entry invariant by the whole call loop. -/
theorem dataInv_processCalls {dir : Directory} {P : List Char → OwnerStats → Prop}
    {calls : List CallRecord} :
    ∀ {d d' : ReportData},
    processCalls dir d calls = some d' →
    (∀ k s, (k, s) ∈ d → P k s) →
    (∀ k, isTracked dir k = true → P k emptyStats) →
    (∀ k dur s, P k s → P k (bumpOutboundCall dur s)) →
    (∀ k dur s, P k s → P k (bumpInboundCall dur s)) →
    ∀ k s, (k, s) ∈ d' → P k s := by
  induction calls with
  | nil =>
    intro d d' h hd _ _ _
    rw [processCalls] at h
    rw [← Option.some_injective _ h]; exact hd
  | cons c cs ih =>
    intro d d' h hd he hout hin
    rw [processCalls] at h
    match hc : processCall dir d c with
    | none => rw [hc] at h; simp at h
    | some d1 =>
      rw [hc] at h
      exact ih h (dataInv_processCall hc hd he hout hin) he hout hin

/-- Preservation of a per-entry invariant by one message-loop iteration. -/
theorem dataInv_processMessage {dir : Directory} {P : List Char → OwnerStats → Prop}
    {d : ReportData} {m : MessageRecord}
    (hd : ∀ k s, (k, s) ∈ d → P k s)
    (he : ∀ k, isTracked dir k = true → P k emptyStats)
    (hupd : ∀ k s, P k s → P k (msgUpdate m s)) :
    ∀ k s, (k, s) ∈ processMessage dir d m → P k s := by
  rw [processMessage_eq]
  match hmo : msgOwner dir m with
  | none => exact hd
  | some num =>
    exact dataInv_updateData hd (hupd num) (he num (msgOwner_tracked hmo))

/-- Preservation of a per-entry invariant by the whole message loop. -/
theorem dataInv_foldl_messages {dir : Directory} {P : List Char → OwnerStats → Prop}
    {msgs : List MessageRecord}
    (he : ∀ k, isTracked dir k = true → P k emptyStats)
    (hupd : ∀ m k s, P k s → P k (msgUpdate m s)) :
    ∀ {d : ReportData}, (∀ k s, (k, s) ∈ d → P k s) →
    ∀ k s, (k, s) ∈ msgs.foldl (processMessage dir) d → P k s := by
  induction msgs with
  | nil => intro d hd; exact hd
  | cons m ms ih =>
    intro d hd
    rw [List.foldl_cons]
    exact ih (dataInv_processMessage hd he (hupd m))

/-- Preservation of a per-entry invariant by the whole aggregation. -/
theorem dataInv_aggregate {dir : Directory} {P : List Char → OwnerStats → Prop}
    {calls : List CallRecord} {msgs : List MessageRecord} {d : ReportData}
    (h : aggregate dir calls msgs = some d)
    (he : ∀ k, isTracked dir k = true → P k emptyStats)
    (hout : ∀ k dur s, P k s → P k (bumpOutboundCall dur s))
    (hin : ∀ k dur s, P k s → P k (bumpInboundCall dur s))
    (hupd : ∀ m k s, P k s → P k (msgUpdate m s)) :
    ∀ k s, (k, s) ∈ d → P k s := by
  rw [aggregate] at h
  match hc : processCalls dir [] calls with
  | none => rw [hc] at h; simp at h
  | some d1 =>
    rw [hc] at h
    have h1 : ∀ k s, (k, s) ∈ d1 → P k s :=
      dataInv_processCalls hc (by intro k s hmem; simp at hmem) he hout hin
    rw [← Option.some_injective _ h]
    exact dataInv_foldl_messages he hupd h1

/-! ## Miscellaneous supporting lemmas -/

theorem sumCounts_bumpCampaign (camps : List (List Char × Nat)) (t : List Char) :
    sumCounts (bumpCampaign camps t) = sumCounts camps + 1 := by
  induction camps with
  | nil => simp [bumpCampaign, sumCounts]
  | cons p rest ih =>
    obtain ⟨t', n⟩ := p
    rw [bumpCampaign]
    by_cases h : t' = t
    · rw [if_pos h]
      simp [sumCounts]
      omega
    · rw [if_neg h]
      simp only [sumCounts, List.map_cons, List.sum_cons] at ih ⊢
      omega

theorem lookupName_mem {dir : Directory} {k v : List Char}
    (h : lookupName dir k = some v) : (k, v) ∈ dir := by
  induction dir with
  | nil => simp [lookupName] at h
  | cons p rest ih =>
    obtain ⟨k0, v0⟩ := p
    rw [lookupName] at h
    by_cases h0 : k0 = k
    · rw [if_pos h0] at h
      have : v0 = v := Option.some_injective _ h
      subst h0; subst this
      exact List.mem_cons_self _ _
    · rw [if_neg h0] at h
      exact List.mem_cons_of_mem _ (ih h)

theorem mem_insertRowDesc {r r' : ReportRow} {l : List ReportRow} :
    r' ∈ insertRowDesc r l ↔ r' = r ∨ r' ∈ l := by
  induction l with
  | nil => simp [insertRowDesc]
  | cons r0 rest ih =>
    rw [insertRowDesc]
    by_cases h : r0.total_activity ≤ r.total_activity
    · rw [if_pos h]
      simp [List.mem_cons]
    · rw [if_neg h]
      simp only [List.mem_cons, ih]
      tauto

theorem mem_sortRowsDesc {r : ReportRow} {l : List ReportRow} :
    r ∈ sortRowsDesc l ↔ r ∈ l := by
  induction l with
  | nil => simp [sortRowsDesc]
  | cons r0 rest ih =>
    rw [sortRowsDesc]
    rw [mem_insertRowDesc]
    simp [List.mem_cons, ih]

theorem pyStartswith_false_of_not_containsSub {pat s : List Char}
    (h : containsSub pat s = false) : pyStartswith pat s = false := by
  cases s with
  | nil =>
    rw [containsSub] at h
    cases pat with
    | nil => simp at h
    | cons p ps => rfl
  | cons c rest =>
    rw [containsSub] at h
    exact (Bool.or_eq_false_iff.mp h).1

/-- `normalize_number` never returns the empty string. -/
theorem normalize_number_ne_nil {v : Option (List Char)} {num : List Char}
    (h : normalize_number v = some num) : num ≠ [] := by
  match v with
  | none => simp [normalize_number] at h
  | some s =>
    rw [normalize_number] at h
    split at h
    · simp at h
    · split at h
      · rename_i r hr
        obtain ⟨ds, hne, hall, _, _, hcase⟩ := searchRun_shape hr
        have : plusify r = num := Option.some_injective _ h
        subst this
        rcases hcase with h1 | h1
        · subst h1; rw [plusify_not_digit_head hne hall]; simp
        · subst h1; rw [plusify_plus]; simp
      · split at h
        · simp at h
        · rename_i h2
          have : stripWS s = num := Option.some_injective _ h
          rw [← this]
          exact h2

/-! ## The claims -/

/-- C3 is false as stated: on `"123 45"` (no run of 5 digits) the fallback
branch strips the space, yielding `"12345"`, but renormalizing that yields
`"+12345"`, so `normalize(normalize(s)) ≠ normalize(s)`. -/
theorem normalize_idempotent_counterexample :
    normalize_number (some "123 45".data) = some "12345".data ∧
    normalize_number (normalize_number (some "123 45".data)) = some "+12345".data ∧
    normalize_number (normalize_number (some "123 45".data)) ≠
      normalize_number (some "123 45".data) :=
  ⟨by decide, by decide, by decide⟩

/-- C3 (amended): `normalize(normalize(s)) = normalize(s)` for every string
`s` that is handled by the digit-run branch (a run of 5 to 15 digits is
found), and also on the whitespace-stripping fallback branch provided
stripping the whitespace does not create a new digit run; idempotence can
fail on the fallback branch otherwise. -/
theorem normalize_idempotent_amended (s : List Char)
    (h : (searchRun s).isSome = true ∨ searchRun (stripWS s) = none) :
    normalize_number (normalize_number (some s)) = normalize_number (some s) := by
  rcases h with h | h
  · obtain ⟨r, hr⟩ := Option.isSome_iff_exists.mp h
    exact normalize_fixed_of_searchRun hr
  · by_cases hsr : (searchRun s).isSome = true
    · obtain ⟨r, hr⟩ := Option.isSome_iff_exists.mp hsr
      exact normalize_fixed_of_searchRun hr
    · exact normalize_fixed_of_fallback (Option.not_isSome_iff_eq_none.mp hsr) h

/-- Witness for the amended C3 at the concrete input `"12345"`. -/
theorem normalize_idempotent_amended_witness :
    normalize_number (normalize_number (some "12345".data)) =
      normalize_number (some "12345".data) :=
  normalize_idempotent_amended "12345".data (Or.inl (by decide))

/-- C5: the campaign extractor returns no template when the body has no
comma; with a comma, it returns the trimmed text after the first comma
exactly when that text is longer than 30 characters, and `none` otherwise;
and the three concrete examples of the spec behave as stated. -/
theorem extract_template_spec (body : List Char) :
    (¬ (',' ∈ body) → extract_template body = none) ∧
    (∀ pre post, splitFirstComma body = some (pre, post) →
       ((pyStrip post).length ≤ 30 → extract_template body = none) ∧
       (30 < (pyStrip post).length → extract_template body = some (pyStrip post))) ∧
    extract_template "Hi John".data = none ∧
    extract_template "Hi, ok".data = none ∧
    extract_template "Hi John, We have a new position available for drivers in your area".data =
      some (pyStrip " We have a new position available for drivers in your area".data) := by
  refine ⟨?_, ?_, by decide, by decide, by decide⟩
  · intro h
    rw [extract_template]
    split
    · rfl
    · rw [splitFirstComma_eq_none_iff.mpr h]
  · intro pre post hsp
    have hne : body ≠ [] := by
      intro h0; rw [h0] at hsp; simp [splitFirstComma] at hsp
    constructor
    · intro hle
      rw [extract_template, if_neg hne, hsp]
      show (if 30 < (pyStrip post).length then some (pyStrip post) else none) = none
      rw [if_neg (by omega)]
    · intro hgt
      rw [extract_template, if_neg hne, hsp]
      show (if 30 < (pyStrip post).length then some (pyStrip post) else none) =
        some (pyStrip post)
      rw [if_pos hgt]

/-- Witness for C5 at the concrete input `"a,b"` (post-comma length 1). -/
theorem extract_template_spec_witness :
    splitFirstComma "a,b".data = some ("a".data, "b".data) ∧
    extract_template "a,b".data = none :=
  ⟨by decide,
   ((extract_template_spec "a,b".data).2.1 "a".data "b".data (by decide)).1 (by decide)⟩

/-- Conservation of message counts through the whole aggregation: each
owner's `sms` equals the total of its campaign counters plus the length of
its `other_sms` list. -/
theorem aggregate_conservation {dir : Directory} {calls : List CallRecord}
    {msgs : List MessageRecord} {d : ReportData}
    (h : aggregate dir calls msgs = some d) :
    ∀ k s, (k, s) ∈ d → s.sms = sumCounts s.campaigns + s.other_sms.length := by
  refine @dataInv_aggregate dir
    (fun _ s => s.sms = sumCounts s.campaigns + s.other_sms.length)
    calls msgs d h ?_ ?_ ?_ ?_
  · intro k _
    simp [emptyStats, sumCounts]
  · intro k dur s hs
    simpa [bumpOutboundCall] using hs
  · intro k dur s hs
    simpa [bumpInboundCall] using hs
  · intro m k s hs
    cases ht : msgTemplate (containsSub "outbound".data (pyLower (optStr m.direction)))
        (optStr m.body) with
    | some t =>
      simp only [msgUpdate, ht, addCampaign, bumpSms, sumCounts_bumpCampaign]
      omega
    | none =>
      simp only [msgUpdate, ht, addOtherSms, bumpSms, List.length_append,
        List.length_cons, List.length_nil]
      omega

/-- C2: every attributed message increments its owner's message count by
exactly one, touches no other owner, and contributes to exactly one of
the campaign counters (total `+1`, other list unchanged) or the
non-campaign list (one appended entry, campaign counters unchanged);
consequently at the end of a run each owner's message count equals the sum
of its campaign counters plus its non-campaign list length. -/
theorem message_conservation (dir : Directory) (calls : List CallRecord)
    (msgs : List MessageRecord) (d : ReportData)
    (h : aggregate dir calls msgs = some d) :
    (∀ k s, (k, s) ∈ d → s.sms = sumCounts s.campaigns + s.other_sms.length) ∧
    (∀ (d0 : ReportData) (m : MessageRecord) (num : List Char),
      msgOwner dir m = some num →
      (getStats (processMessage dir d0 m) num).sms = (getStats d0 num).sms + 1 ∧
      (∀ k, k ≠ num → getStats (processMessage dir d0 m) k = getStats d0 k) ∧
      ((sumCounts (getStats (processMessage dir d0 m) num).campaigns =
          sumCounts (getStats d0 num).campaigns + 1 ∧
        (getStats (processMessage dir d0 m) num).other_sms =
          (getStats d0 num).other_sms) ∨
       ((getStats (processMessage dir d0 m) num).campaigns =
          (getStats d0 num).campaigns ∧
        (getStats (processMessage dir d0 m) num).other_sms =
          (getStats d0 num).other_sms ++ [msgOtherEntry m]))) := by
  refine ⟨aggregate_conservation h, ?_⟩
  intro d0 m num hmo
  have hpm : processMessage dir d0 m = updateData d0 num (msgUpdate m) := by
    rw [processMessage_eq, hmo]
  rw [hpm]
  refine ⟨?_, ?_, ?_⟩
  · rw [getStats_updateData_self]
    cases ht : msgTemplate (containsSub "outbound".data (pyLower (optStr m.direction)))
        (optStr m.body) with
    | some t => simp [msgUpdate, ht, addCampaign, bumpSms]
    | none => simp [msgUpdate, ht, addOtherSms, bumpSms]
  · intro k hk
    exact getStats_updateData_other d0 num k (msgUpdate m) hk
  · rw [getStats_updateData_self]
    cases ht : msgTemplate (containsSub "outbound".data (pyLower (optStr m.direction)))
        (optStr m.body) with
    | some t =>
      left
      constructor
      · simp [msgUpdate, ht, addCampaign, bumpSms, sumCounts_bumpCampaign]
      · simp [msgUpdate, ht, addCampaign, bumpSms]
    | none =>
      right
      constructor
      · simp [msgUpdate, ht, addOtherSms, bumpSms]
      · simp [msgUpdate, ht, addOtherSms, bumpSms]

def c2w_msg : MessageRecord :=
  { from_ := some "+19995550000".data, to_ := some "+13613332093".data,
    direction := some "inbound".data, status := some "received".data,
    body := some "Sounds good".data }

def c2w_stats : OwnerStats :=
  { inbound_calls := 0, inbound_duration := 0, outbound_calls := 0,
    outbound_duration := 0, sms := 1, campaigns := [],
    other_sms := [{ direction := "inbound".data,
                    contact := some "+19995550000".data,
                    body := "Sounds good".data }] }

/-- Witness for C2 on a one-message run attributed to +13613332093. -/
theorem message_conservation_witness :
    c2w_stats.sms = sumCounts c2w_stats.campaigns + c2w_stats.other_sms.length :=
  (message_conservation NORMALIZED_NAME_MAP [] [c2w_msg]
      [("+13613332093".data, c2w_stats)] (by decide)).1
    "+13613332093".data c2w_stats (by decide)

/-- C6: a template counted exactly `MIN_MESSAGES_FOR_CAMPAIGN - 1` times
(9 by default) is never in the qualifying-campaign view, one counted
exactly `MIN_MESSAGES_FOR_CAMPAIGN` (10) times is; the view only filters
(sub-threshold templates remain counted internally), and every owner's
message count includes campaign and non-campaign messages alike. -/
theorem threshold_boundary (camps : List (List Char × Nat)) (t : List Char)
    (dir : Directory) (calls : List CallRecord) (msgs : List MessageRecord)
    (d : ReportData) (hagg : aggregate dir calls msgs = some d) :
    MIN_MESSAGES_FOR_CAMPAIGN = 10 ∧
    ((t, MIN_MESSAGES_FOR_CAMPAIGN - 1) ∈ camps →
      (t, MIN_MESSAGES_FOR_CAMPAIGN - 1) ∉ qualifyingCampaigns camps) ∧
    ((t, MIN_MESSAGES_FOR_CAMPAIGN) ∈ camps →
      (t, MIN_MESSAGES_FOR_CAMPAIGN) ∈ qualifyingCampaigns camps) ∧
    (∀ p ∈ qualifyingCampaigns camps, p ∈ camps) ∧
    (∀ k s, (k, s) ∈ d → s.sms = sumCounts s.campaigns + s.other_sms.length) := by
  refine ⟨rfl, ?_, ?_, ?_, aggregate_conservation hagg⟩
  · intro _ hq
    have h2 := (List.mem_filter.mp hq).2
    simp [MIN_MESSAGES_FOR_CAMPAIGN] at h2
  · intro hmem
    exact List.mem_filter.mpr ⟨hmem, by simp [MIN_MESSAGES_FOR_CAMPAIGN]⟩
  · intro p hp
    exact (List.mem_filter.mp hp).1

/-- Witness for C6 at a concrete campaign map with counts 9 and 10. -/
theorem threshold_boundary_witness :
    ("T".data, 9) ∉ qualifyingCampaigns [("T".data, 9), ("U".data, 10)] ∧
    ("U".data, 10) ∈ qualifyingCampaigns [("T".data, 9), ("U".data, 10)] :=
  ⟨(threshold_boundary [("T".data, 9), ("U".data, 10)] "T".data
      NORMALIZED_NAME_MAP [] [] [] (by decide)).2.1 (by decide),
   (threshold_boundary [("T".data, 9), ("U".data, 10)] "U".data
      NORMALIZED_NAME_MAP [] [] [] (by decide)).2.2.1 (by decide)⟩

/-- The change of a stats record in which exactly the outbound pair moved:
outbound count `+1`, outbound duration `+dur`, every other field equal. -/
def onlyOutboundBumped (s s' : OwnerStats) (dur : Int) : Prop :=
  s'.outbound_calls = s.outbound_calls + 1 ∧
  s'.outbound_duration = s.outbound_duration + dur ∧
  s'.inbound_calls = s.inbound_calls ∧
  s'.inbound_duration = s.inbound_duration ∧
  s'.sms = s.sms ∧ s'.campaigns = s.campaigns ∧ s'.other_sms = s.other_sms

/-- The change of a stats record in which exactly the inbound pair moved. -/
def onlyInboundBumped (s s' : OwnerStats) (dur : Int) : Prop :=
  s'.inbound_calls = s.inbound_calls + 1 ∧
  s'.inbound_duration = s.inbound_duration + dur ∧
  s'.outbound_calls = s.outbound_calls ∧
  s'.outbound_duration = s.outbound_duration ∧
  s'.sms = s.sms ∧ s'.campaigns = s.campaigns ∧ s'.other_sms = s.other_sms

/-- C7: one call record changes the stats of at most one owner, and that
change bumps exactly one of the inbound/outbound count-and-duration pairs;
a record with a parent-call id or a status other than "completed"
(case-insensitively) leaves the accumulators untouched. -/
theorem call_exclusivity (dir : Directory) (d : ReportData) (c : CallRecord)
    (d' : ReportData) (h : processCall dir d c = some d') :
    ((c.parent_call_sid ≠ none ∨ pyLower (optStr c.status) ≠ "completed".data) →
      d' = d) ∧
    ∃ k, (∀ k', k' ≠ k → getStats d' k' = getStats d k') ∧
      (getStats d' k = getStats d k ∨
       ∃ dur, callDuration c = some dur ∧
         (onlyOutboundBumped (getStats d k) (getStats d' k) dur ∨
          onlyInboundBumped (getStats d k) (getStats d' k) dur)) := by
  rw [processCall] at h
  by_cases h1 : c.parent_call_sid.isSome = true
  · rw [if_pos h1] at h
    have hd : d' = d := (Option.some_injective _ h).symm
    subst hd
    exact ⟨fun _ => rfl, [], fun _ _ => rfl, Or.inl rfl⟩
  · rw [if_neg h1] at h
    by_cases h2 : pyLower (optStr c.status) ≠ "completed".data
    · rw [if_pos h2] at h
      have hd : d' = d := (Option.some_injective _ h).symm
      subst hd
      exact ⟨fun _ => rfl, [], fun _ _ => rfl, Or.inl rfl⟩
    · rw [if_neg h2] at h
      have hpar : c.parent_call_sid = none := Option.not_isSome_iff_eq_none.mp h1
      match hdur : callDuration c with
      | none => rw [hdur] at h; exact absurd h (by simp)
      | some dur =>
        rw [hdur] at h
        have hineligible :
            (c.parent_call_sid ≠ none ∨ pyLower (optStr c.status) ≠ "completed".data) →
              d' = d := by
          intro hcase
          rcases hcase with hcase | hcase
          · exact absurd hpar hcase
          · exact absurd hcase h2
        match hco : callOwner dir c with
        | none =>
          rw [hco] at h
          have hd : d' = d := (Option.some_injective _ h).symm
          subst hd
          exact ⟨hineligible, [], fun _ _ => rfl, Or.inl rfl⟩
        | some (k, true) =>
          rw [hco] at h
          have hd : d' = updateData d k (bumpOutboundCall dur) :=
            (Option.some_injective _ h).symm
          subst hd
          refine ⟨hineligible, k, ?_, Or.inr ⟨dur, rfl, Or.inl ?_⟩⟩
          · intro k' hk
            exact getStats_updateData_other d k k' _ hk
          · rw [getStats_updateData_self]
            exact ⟨rfl, rfl, rfl, rfl, rfl, rfl, rfl⟩
        | some (k, false) =>
          rw [hco] at h
          have hd : d' = updateData d k (bumpInboundCall dur) :=
            (Option.some_injective _ h).symm
          subst hd
          refine ⟨hineligible, k, ?_, Or.inr ⟨dur, rfl, Or.inr ?_⟩⟩
          · intro k' hk
            exact getStats_updateData_other d k k' _ hk
          · rw [getStats_updateData_self]
            exact ⟨rfl, rfl, rfl, rfl, rfl, rfl, rfl⟩

def c7w_call : CallRecord :=
  { parent_call_sid := none, status := some "completed".data,
    duration := some "60".data, from_ := some "+12109343993".data,
    to_ := some "+19998887777".data, direction := some "outbound-dial".data }

def c7w_stats : OwnerStats :=
  { inbound_calls := 0, inbound_duration := 0, outbound_calls := 1,
    outbound_duration := 60, sms := 0, campaigns := [], other_sms := [] }

/-- Witness for C7 on one eligible outbound call of +12109343993. -/
theorem call_exclusivity_witness :
    ∃ k, (∀ k', k' ≠ k →
        getStats [("+12109343993".data, c7w_stats)] k' = getStats [] k') ∧
      (getStats [("+12109343993".data, c7w_stats)] k = getStats [] k ∨
       ∃ dur, callDuration c7w_call = some dur ∧
         (onlyOutboundBumped (getStats [] k)
            (getStats [("+12109343993".data, c7w_stats)] k) dur ∨
          onlyInboundBumped (getStats [] k)
            (getStats [("+12109343993".data, c7w_stats)] k) dur)) :=
  (call_exclusivity NORMALIZED_NAME_MAP [] c7w_call
    [("+12109343993".data, c7w_stats)] (by decide)).2

/-- C9: a message whose direction contains neither "inbound" nor
"outbound", attributed to an owner via its (truthy) "from" address, gets a
non-campaign entry whose recorded direction is "inbound" and whose contact
is the message's own raw "from" address — the owner's own number. -/
theorem unknown_direction_entry (dir : Directory) (d : ReportData)
    (m : MessageRecord) (num : List Char)
    (hno_out : containsSub "outbound".data (pyLower (optStr m.direction)) = false)
    (hno_in : containsSub "inbound".data (pyLower (optStr m.direction)) = false)
    (hfrom : pyTruthy m.from_ = true)
    (hnum : normalize_number m.from_ = some num)
    (htr : isTracked dir num = true) :
    our_number_from_message m = m.from_ ∧
    msgOtherEntry m = { direction := "inbound".data, contact := m.from_,
                        body := optStr m.body } ∧
    (getStats (processMessage dir d m) num).other_sms =
      (getStats d num).other_sms ++
        [{ direction := "inbound".data, contact := m.from_, body := optStr m.body }] ∧
    (getStats (processMessage dir d m) num).campaigns = (getStats d num).campaigns := by
  have hsw_out : pyStartswith "outbound".data (pyLower (optStr m.direction)) = false :=
    pyStartswith_false_of_not_containsSub hno_out
  have hsw_in : pyStartswith "inbound".data (pyLower (optStr m.direction)) = false :=
    pyStartswith_false_of_not_containsSub hno_in
  have hour : our_number_from_message m = m.from_ := by
    rw [our_number_from_message, if_neg (by rw [hsw_out]; simp),
      if_neg (by rw [hsw_in]; simp), pyOrStr, if_pos hfrom]
  have hentry : msgOtherEntry m =
      { direction := "inbound".data, contact := m.from_, body := optStr m.body } := by
    rw [msgOtherEntry, hno_out]
    rfl
  have hmo : msgOwner dir m = some num := by
    rw [msgOwner, hour, hnum]
    show (if num = [] ∨ ¬ isTracked dir num then none else some num) = some num
    rw [if_neg]
    push_neg
    refine ⟨normalize_number_ne_nil hnum, ?_⟩
    rw [htr]
  have hupd : msgUpdate m = addOtherSms (msgOtherEntry m) ∘ bumpSms := by
    funext s
    rw [msgUpdate]
    have ht : msgTemplate (containsSub "outbound".data (pyLower (optStr m.direction)))
        (optStr m.body) = none := by
      rw [hno_out, msgTemplate]
      rfl
    rw [ht]
    rfl
  have hpm : processMessage dir d m = updateData d num (msgUpdate m) := by
    rw [processMessage_eq, hmo]
  refine ⟨hour, hentry, ?_, ?_⟩
  · rw [hpm, getStats_updateData_self, hupd, hentry]
    simp [addOtherSms, bumpSms]
  · rw [hpm, getStats_updateData_self, hupd]
    simp [addOtherSms, bumpSms]

def c9w_msg : MessageRecord :=
  { from_ := some "+12103611235".data, to_ := some "+19991112222".data,
    direction := none, status := some "sent".data,
    body := some "hello there".data }

/-- Witness for C9 on a directionless message from +12103611235. -/
theorem unknown_direction_entry_witness :
    our_number_from_message c9w_msg = c9w_msg.from_ ∧
    msgOtherEntry c9w_msg = { direction := "inbound".data, contact := c9w_msg.from_,
                              body := optStr c9w_msg.body } ∧
    (getStats (processMessage NORMALIZED_NAME_MAP [] c9w_msg)
        "+12103611235".data).other_sms =
      (getStats [] "+12103611235".data).other_sms ++
        [{ direction := "inbound".data, contact := c9w_msg.from_,
           body := optStr c9w_msg.body }] ∧
    (getStats (processMessage NORMALIZED_NAME_MAP [] c9w_msg)
        "+12103611235".data).campaigns =
      (getStats [] "+12103611235".data).campaigns :=
  unknown_direction_entry NORMALIZED_NAME_MAP [] c9w_msg "+12103611235".data
    (by decide) (by decide) (by decide) (by decide) (by decide)

/-- C10: every row of the summary report carries a name and number coming
from one entry of the configured directory; the "Unknown" fallback of the
name lookup is never used, because accumulator keys are created only for
tracked numbers. -/
theorem rows_named_from_directory (dir : Directory) (calls : List CallRecord)
    (msgs : List MessageRecord) (d : ReportData)
    (h : aggregate dir calls msgs = some d) :
    ∀ r ∈ buildReport dir d, ∃ kv, kv ∈ dir ∧ r.name = kv.2 ∧ r.number = kv.1 := by
  have hinv : ∀ k s, (k, s) ∈ d → isTracked dir k = true := by
    refine @dataInv_aggregate dir (fun k _ => isTracked dir k = true)
      calls msgs d h ?_ ?_ ?_ ?_
    · intro k hk; exact hk
    · intro k dur s hs; exact hs
    · intro k dur s hs; exact hs
    · intro m k s hs; exact hs
  intro r hr
  rw [buildReport] at hr
  obtain ⟨p, hp, hbuild⟩ := List.mem_map.mp (mem_sortRowsDesc.mp hr)
  have htr : isTracked dir p.1 = true := hinv p.1 p.2 hp
  obtain ⟨v, hv⟩ := Option.isSome_iff_exists.mp htr
  refine ⟨(p.1, v), lookupName_mem hv, ?_, ?_⟩
  · rw [← hbuild]
    simp [buildRow, hv]
  · rw [← hbuild]
    simp [buildRow]

def c10w_call : CallRecord :=
  { parent_call_sid := none, status := some "completed".data,
    duration := some "90".data, from_ := some "+14693789446".data,
    to_ := some "+19998887777".data, direction := some "outbound-api".data }

def c10w_stats : OwnerStats :=
  { inbound_calls := 0, inbound_duration := 0, outbound_calls := 1,
    outbound_duration := 90, sms := 0, campaigns := [], other_sms := [] }

def c10w_row : ReportRow :=
  { name := "Roshan Y".data, number := "+14693789446".data,
    inbound_calls := 0, inbound_mins_tenths := 0,
    outbound_calls := 1, outbound_mins_tenths := 15,
    sms := 0, total_activity := 1 }

/-- Witness for C10 on a one-call run producing a single row. -/
theorem rows_named_from_directory_witness :
    ∃ kv, kv ∈ NORMALIZED_NAME_MAP ∧ c10w_row.name = kv.2 ∧ c10w_row.number = kv.1 :=
  rows_named_from_directory NORMALIZED_NAME_MAP [c10w_call] []
    [("+14693789446".data, c10w_stats)] (by decide) c10w_row (by decide)

def c1_call : CallRecord :=
  { parent_call_sid := none, status := some "completed".data,
    duration := some "7".data, from_ := some "+13613332093".data,
    to_ := some "+12109341811".data, direction := some "inbound".data }

/-- C1 is false as stated: `c1_call` is completed, its direction contains
"inbound" and both ends are tracked, so by the claim it must be attributed
as inbound to the "to" owner +12109341811; the code instead attributes it
as outbound to the "from" owner +13613332093 and leaves the "to" owner
without any accumulator. -/
theorem direction_not_authoritative_counterexample :
    containsSub "inbound".data (pyLower (optStr c1_call.direction)) = true ∧
    isTracked NORMALIZED_NAME_MAP "+13613332093".data = true ∧
    isTracked NORMALIZED_NAME_MAP "+12109341811".data = true ∧
    processCall NORMALIZED_NAME_MAP [] c1_call =
      some [("+13613332093".data,
        { inbound_calls := 0, inbound_duration := 0, outbound_calls := 1,
          outbound_duration := 7, sms := 0, campaigns := [], other_sms := [] })] :=
  ⟨by decide, by decide, by decide, by decide⟩

/-- C1 (amended): for eligible calls the direction field is never
consulted; the owner is always the normalized "from" address, counted as
outbound, whenever that address is tracked, otherwise the normalized "to"
address, counted as inbound, if that one is tracked, and otherwise the
call contributes nothing. -/
theorem call_owner_from_biased (dir : Directory) (d : ReportData) (c : CallRecord)
    (hpar : c.parent_call_sid = none)
    (hst : pyLower (optStr c.status) = "completed".data)
    (dur : Int) (hdur : callDuration c = some dur) :
    (∀ dirStr, processCall dir d { c with direction := dirStr } = processCall dir d c) ∧
    (∀ fn, normalize_number c.from_ = some fn → isTracked dir fn = true →
      processCall dir d c = some (updateData d fn (bumpOutboundCall dur))) ∧
    (isTrackedOpt dir (normalize_number c.from_) = false →
      ∀ tn, normalize_number c.to_ = some tn → isTracked dir tn = true →
        processCall dir d c = some (updateData d tn (bumpInboundCall dur))) ∧
    (isTrackedOpt dir (normalize_number c.from_) = false →
      isTrackedOpt dir (normalize_number c.to_) = false →
      processCall dir d c = some d) := by
  have h1 : ¬ (c.parent_call_sid.isSome = true) := by rw [hpar]; simp
  have h2 : ¬ (pyLower (optStr c.status) ≠ "completed".data) := by rw [hst]; simp
  refine ⟨fun dirStr => rfl, ?_, ?_, ?_⟩
  · intro fn hfn htr
    have hco : callOwner dir c = some (fn, true) := by
      simp [callOwner, hfn, isTrackedOpt, htr]
    rw [processCall, if_neg h1, if_neg h2, hdur, hco]
  · intro hff tn htn htr
    have hco : callOwner dir c = some (tn, false) := by
      rw [callOwner, if_neg (by rw [hff]; simp), htn,
        if_pos (show isTrackedOpt dir (some tn) = true from htr)]
      rfl
    rw [processCall, if_neg h1, if_neg h2, hdur, hco]
  · intro hff hft
    have hco : callOwner dir c = none := by
      simp [callOwner, hff, hft]
    rw [processCall, if_neg h1, if_neg h2, hdur, hco]

/-- Witness for the amended C1 at `c1_call`. -/
theorem call_owner_from_biased_witness :
    processCall NORMALIZED_NAME_MAP [] c1_call =
      some (updateData [] "+13613332093".data (bumpOutboundCall 7)) :=
  (call_owner_from_biased NORMALIZED_NAME_MAP [] c1_call rfl (by decide)
      7 (by decide)).2.1 "+13613332093".data (by decide) (by decide)

def c4_bad_call : CallRecord :=
  { parent_call_sid := none, status := some "Completed".data,
    duration := some "abc".data, from_ := some "+13613332093".data,
    to_ := none, direction := some "outbound-dial".data }

def c4_good_call : CallRecord :=
  { parent_call_sid := none, status := some "completed".data,
    duration := some "60".data, from_ := some "+12108796990".data,
    to_ := some "+19998887777".data, direction := some "outbound-dial".data }

/-- C4 is false as stated: the eligible record `c4_bad_call` carries the
non-numeric duration string "abc", on which `int(...)` raises, aborting
the whole batch (`none`); the same batch without that record succeeds. -/
theorem duration_exception_counterexample :
    processCalls NORMALIZED_NAME_MAP [] [c4_good_call, c4_bad_call] = none ∧
    processCalls NORMALIZED_NAME_MAP [] [c4_good_call] =
      some [("+12108796990".data,
        { inbound_calls := 0, inbound_duration := 0, outbound_calls := 1,
          outbound_duration := 60, sms := 0, campaigns := [], other_sms := [] })] :=
  ⟨by decide, by decide⟩

/-- C4 (amended): an absent, `None` or empty duration is treated as 0 and
never raises; but an eligible call record whose duration string does not
parse as an integer raises, and the exception aborts processing of the
whole batch — per-record failures are not isolated. -/
theorem duration_malformed_amended (dir : Directory) (c : CallRecord)
    (hpar : c.parent_call_sid = none)
    (hst : pyLower (optStr c.status) = "completed".data) :
    (c.duration = none → callDuration c = some 0) ∧
    (c.duration = some [] → callDuration c = some 0) ∧
    (callDuration c = none →
      ∀ (pre post : List CallRecord) (d : ReportData),
        processCalls dir d (pre ++ c :: post) = none) := by
  have h1 : ¬ (c.parent_call_sid.isSome = true) := by rw [hpar]; simp
  have h2 : ¬ (pyLower (optStr c.status) ≠ "completed".data) := by rw [hst]; simp
  refine ⟨?_, ?_, ?_⟩
  · intro h
    rw [callDuration, h]
  · intro h
    rw [callDuration, h]
    rfl
  · intro hbad pre post
    have hc : ∀ d, processCall dir d c = none := by
      intro d
      rw [processCall, if_neg h1, if_neg h2, hbad]
    induction pre with
    | nil =>
      intro d
      show processCalls dir d (c :: post) = none
      rw [processCalls, hc d]
    | cons p pre' ih =>
      intro d
      show processCalls dir d (p :: (pre' ++ c :: post)) = none
      rw [processCalls]
      match hp : processCall dir d p with
      | none => rfl
      | some d1 => exact ih d1

/-- Witness for the amended C4: the batch around `c4_bad_call` aborts. -/
theorem duration_malformed_amended_witness :
    processCalls NORMALIZED_NAME_MAP [] ([c4_good_call] ++ c4_bad_call :: []) = none :=
  (duration_malformed_amended NORMALIZED_NAME_MAP c4_bad_call rfl (by decide)).2.2
    (by decide) [c4_good_call] [] []

/-! ## End-to-end scenario (C8) -/

def alice_directory : Directory := mkDirectory [("+15551234567".data, "Alice".data)]

def c8_call : CallRecord :=
  { parent_call_sid := none, status := some "completed".data,
    duration := some "125".data, from_ := some "+15551234567".data,
    to_ := some "+15557654321".data, direction := some "outbound-api".data }

def c8_campaign_msg (n : Nat) : MessageRecord :=
  { from_ := some "+15551234567".data,
    to_ := some ("+1555000000" ++ toString n).data,
    direction := some "outbound-api".data, status := some "delivered".data,
    body := some ("Hi Person " ++ toString n ++
      ", We are hiring drivers this week, apply now").data }

def c8_reply_msg : MessageRecord :=
  { from_ := some "+15557654321".data, to_ := some "+15551234567".data,
    direction := some "inbound".data, status := some "received".data,
    body := some "Sounds good".data }

def c8_msgs : List MessageRecord :=
  ((List.range 10).map (fun i => c8_campaign_msg (i + 1))) ++ [c8_reply_msg]

def c8_template : List Char := "We are hiring drivers this week, apply now".data

def c8_stats : OwnerStats :=
  { inbound_calls := 0, inbound_duration := 0, outbound_calls := 1,
    outbound_duration := 125, sms := 11,
    campaigns := [(c8_template, 10)],
    other_sms := [{ direction := "inbound".data,
                    contact := some "+15557654321".data,
                    body := "Sounds good".data }] }

/-- C8: on the spec's end-to-end scenario the engine produces exactly one
accumulator (for Alice's number), whose summary row shows 1 outbound call,
2.1 outbound minutes (21 tenths), 11 messages and total activity 12; the
qualifying-campaign view holds the single template with count 10, and the
non-campaign list holds the single inbound "Sounds good" entry. -/
theorem end_to_end_scenario :
    aggregate alice_directory [c8_call] c8_msgs =
      some [("+15551234567".data, c8_stats)] ∧
    buildReport alice_directory [("+15551234567".data, c8_stats)] =
      [{ name := "Alice".data, number := "+15551234567".data,
         inbound_calls := 0, inbound_mins_tenths := 0,
         outbound_calls := 1, outbound_mins_tenths := 21,
         sms := 11, total_activity := 12 }] ∧
    qualifyingCampaigns c8_stats.campaigns = [(c8_template, 10)] ∧
    c8_stats.other_sms = [{ direction := "inbound".data,
                            contact := some "+15557654321".data,
                            body := "Sounds good".data }] :=
  ⟨by decide, by decide, by decide, by decide⟩
